import Mathlib

/-
Shallow embedding of the KairosDB TypeScript client (src/kairosDB.ts, first
module copy, the one with keep-alive agents and the `errors` field).

Modelling conventions:
* JavaScript numbers are modelled as `Int` (all values the claims touch are
  integral: timestamps in milliseconds, counts, HTTP status codes).
* A JSON field that may be absent (`undefined`/`null`) is an `Option`;
  JavaScript truthiness of an object-typed field such as `response.errors`
  is `Option.isSome` — note that an *empty array is truthy* in JavaScript.
* A thrown exception is `JsResult.thrown msg`; an unguarded property access
  on `undefined` (a TypeError at run time, e.g. `queries[0].results` when
  `queries` is empty) is `JsResult.typeError`.
* Network I/O is abstracted by passing the decoded `KairosResponse` (or the
  raw `HttpResponse`) that the server would answer with; for the
  `readCountLong` loop a whole server is a function from the issued window
  bounds `(start_absolute, end_absolute)` to the decoded response.
-/

/-- Outcome of a JavaScript call: a normal return, a deliberately thrown
error carrying its message, or an unguarded property access on `undefined`
(a TypeError). -/
inductive JsResult (α : Type) where
  | ok : α → JsResult α
  | thrown : String → JsResult α
  | typeError : JsResult α
  deriving DecidableEq, Repr

/-- Source: `type KairosMultiTags = { [key:string]: string[] }`. -/
def KairosMultiTags := List (String × List String)

instance : DecidableEq KairosMultiTags := by
  unfold KairosMultiTags; infer_instance

/-- Source: the `sampling` field type of `KairosAggregator`. -/
structure KairosSampling where
  value : String
  unit : String
  deriving DecidableEq, Repr

/-- Source: `class KairosAggregator`. -/
structure KairosAggregator where
  name : String
  align_sampling : Bool
  sampling : KairosSampling
  deriving DecidableEq, Repr

/-- Source: `class KairosGrouper` (its `name` is the one-value enum
`KairosGrouperType`, always the string "tag"). -/
structure KairosGrouper where
  name : String
  tags : List String
  deriving DecidableEq, Repr

/-- Source: `class KairosRequestMetric`. -/
structure KairosRequestMetric where
  name : String
  tags : KairosMultiTags
  group_by : List KairosGrouper
  aggregators : List KairosAggregator
  deriving DecidableEq

/-- Source: `class KairosRequest`. -/
structure KairosRequest where
  cache_time : Int := 0
  start_absolute : Int := 0
  end_absolute : Option Int := none
  time_zone : Option String := none
  metrics : List KairosRequestMetric
  deriving DecidableEq

/-- Source: `type KairosItem = [number, number]` — first the date, then the
value. -/
def KairosItem := Int × Int

instance : DecidableEq KairosItem := by
  unfold KairosItem; infer_instance

/-- Source: `class KairosResult`. -/
structure KairosResult where
  name : String
  tags : KairosMultiTags
  values : List KairosItem
  deriving DecidableEq

/-- Source: `class KairosQueryResponse`. -/
structure KairosQueryResponse where
  sample_size : Int
  results : List KairosResult
  deriving DecidableEq

/-- Source: `class KairosResponse`; `errors` is absent from a normal query
response, hence an `Option`. -/
structure KairosResponse where
  queries : List KairosQueryResponse
  errors : Option (List String) := none
  deriving DecidableEq

/-- Source: `class TimeIntervalCountingSettings`. -/
structure TimeIntervalCountingSettings where
  interval : Int
  deadInterval : Int
  deriving DecidableEq, Repr

namespace ReadOnlyKairosDB

/-- Source: `static allYears = 999_999` on `ReadOnlyKairosDB`. -/
def allYears : Int := 999999

/-- Aggregator object built inline by `readCount` (and by `readCountLong`):
`{name: "count", align_sampling: true, sampling: {value: '' + allYears,
unit: "years"}}`. -/
def countAggregator : KairosAggregator :=
  { name := "count"
    align_sampling := true
    sampling := { value := toString allYears, unit := "years" } }

/-- Source: `ReadOnlyKairosDB.read`, applied to the decoded response body.
The guard `if (obj.errors) throw obj.errors.join('\n')` fires exactly when
the `errors` field is present: in JavaScript any array, the empty one
included, is truthy. -/
def read (resp : KairosResponse) : JsResult KairosResponse :=
  match resp.errors with
  | some errs => .thrown (String.intercalate "\n" errs)
  | none => .ok resp

/-- Source: the expression
`output.queries[0].sample_size ? output.queries[0].results[0].values[0][1] : 0`
shared by `readCount` and the `readCountLong` loop body. Indexing an empty
array yields `undefined` and the subsequent property access is a TypeError;
`sample_size` is falsy exactly when it is `0`. -/
def extractCount (resp : KairosResponse) : JsResult Int :=
  match resp.queries with
  | [] => .typeError
  | q :: _ =>
    if q.sample_size ≠ 0 then
      match q.results with
      | [] => .typeError
      | r :: _ =>
        match r.values with
        | [] => .typeError
        | v :: _ => .ok v.2
    else .ok 0

/-- Source: the response-processing part of `ReadOnlyKairosDB.readCount`:
`const output = await this.read(request); return output.queries[0].sample_size
? output.queries[0].results[0].values[0][1] : 0;` applied to the decoded
response the server answers with. -/
def readCount (resp : KairosResponse) : JsResult Int :=
  match read resp with
  | .ok o => extractCount o
  | .thrown e => .thrown e
  | .typeError => .typeError

/-- Source: the request-mutating part of `ReadOnlyKairosDB.readCount`:
`request.metrics.forEach(m => m.aggregators = [...])`. The assignment goes
through the caller's object reference, so this is the caller-visible state
of the request record after `readCount` returns. -/
def readCountMutate (request : KairosRequest) : KairosRequest :=
  { request with
    metrics := request.metrics.map (fun m => { m with aggregators := [countAggregator] }) }

/-- Source: `ReadOnlyKairosDB.getMetricTags`, applied to the decoded
response: it returns `responseObject.queries[0].results[0].tags` with no
guard, so a response with zero queries or zero results faults on a property
access on `undefined`. -/
def getMetricTags (resp : KairosResponse) : JsResult KairosMultiTags :=
  match resp.queries with
  | [] => .typeError
  | q :: _ =>
    match q.results with
    | [] => .typeError
    | r :: _ => .ok r.tags

end ReadOnlyKairosDB

/-- Raw HTTP response as seen by the mutating operations: its status code
and its body text. -/
structure HttpResponse where
  status : Int
  body : String
  deriving DecidableEq, Repr

namespace KairosDB

/-- Source: `KairosDB.deleteMetric`, applied to the HTTP response:
`if (response.status != 204) throw new Error(await response.text());
return response;`. -/
def deleteMetric (response : HttpResponse) : JsResult HttpResponse :=
  if response.status ≠ 204 then .thrown response.body else .ok response

/-- Source: `KairosDB.write`, applied to the HTTP response: same 204 check,
no return value. -/
def write (response : HttpResponse) : JsResult Unit :=
  if response.status ≠ 204 then .thrown response.body else .ok ()

/-- Source: `KairosDB.delete`, applied to the HTTP response: same 204 check,
returns the response. -/
def delete (response : HttpResponse) : JsResult HttpResponse :=
  if response.status ≠ 204 then .thrown response.body else .ok response

end KairosDB

/-- Source: `function checkKairosItemsEqual(left, right)` — length check,
then an index loop comparing `left[i][0]`/`left[i][1]` against `right`. -/
def checkKairosItemsEqual (left right : List KairosItem) : Bool :=
  if left.length ≠ right.length then
    false
  else
    (List.range left.length).all fun i =>
      ((left.getD i (0, 0)).1 == (right.getD i (0, 0)).1) &&
      ((left.getD i (0, 0)).2 == (right.getD i (0, 0)).2)

namespace ReadOnlyKairosDB

/-- One windowed read of the `readCountLong` loop body: `const output = await
this.read(request)` followed by the same count extraction as `readCount`,
where `server` maps the issued window bounds `(start_absolute, end_absolute)`
to the decoded response the server answers with. -/
def readWindow (server : Int → Int → KairosResponse) (s e : Int) : JsResult Int :=
  match read (server s e) with
  | .ok o => extractCount o
  | .thrown msg => .thrown msg
  | .typeError => .typeError

/-- Source: the `while` loop of `ReadOnlyKairosDB.readCountLong` (lines
204–215). State: `currentTime`, `nonZeroTime`, `totalCount` are the three
mutable locals; `log` additionally records every window for which a read
request was issued, in order, so that claims about issued requests are
statable. The guard is `0 < currentTime && Math.abs(currentTime -
nonZeroTime) <= settings.deadInterval`; the body sets `end_absolute =
currentTime`, `start_absolute = currentTime - interval + 1` clamped below
at `0`, reads, derives the window count, advances `nonZeroTime` on a
positive count, accumulates, and steps `currentTime` back by `interval`.
A thrown error aborts the whole scan (the window that failed was still
issued, hence still logged). Termination needs `1 < interval`, the
precondition `readCountLong` validates before entering the loop. -/
def readCountLongLoop (server : Int → Int → KairosResponse) (interval : Int)
    (hI : 1 < interval) (deadInterval : Int)
    (currentTime nonZeroTime totalCount : Int) (log : List (Int × Int)) :
    JsResult Int × List (Int × Int) :=
  if h : 0 < currentTime ∧ |currentTime - nonZeroTime| ≤ deadInterval then
    let s : Int := if currentTime - interval + 1 < 0 then 0 else currentTime - interval + 1
    match readWindow server s currentTime with
    | .ok c =>
        readCountLongLoop server interval hI deadInterval
          (currentTime - interval)
          (if 0 < c then currentTime else nonZeroTime)
          (totalCount + c)
          (log ++ [(s, currentTime)])
    | .thrown msg => (.thrown msg, log ++ [(s, currentTime)])
    | .typeError => (.typeError, log ++ [(s, currentTime)])
  else
    (.ok totalCount, log)
termination_by currentTime.toNat
decreasing_by
  simp_wf
  obtain ⟨h1, -⟩ := h
  omega

/-- Source: `ReadOnlyKairosDB.readCountLong(metricName, tags, settings)`:
validates `settings.interval > 1` (throwing otherwise, before any request
is issued), then runs the backward-scan loop from the current wall-clock
time `now` with `nonZeroTime = now` and `totalCount = 0`. Returns the
loop's outcome together with the list of issued windows. -/
def readCountLong (server : Int → Int → KairosResponse)
    (settings : TimeIntervalCountingSettings) (now : Int) :
    JsResult Int × List (Int × Int) :=
  if h : 1 < settings.interval then
    readCountLongLoop server settings.interval h settings.deadInterval now now 0 []
  else
    (.thrown "settings.interval must be greater than 1", [])

/-- Fuel-indexed variant of `readCountLongLoop`, identical step for step but
structurally recursive on `fuel` and returning `none` when the fuel runs
out; used to state that the loop terminates within an explicit number of
iterations. -/
def readCountLongLoopF (server : Int → Int → KairosResponse)
    (interval deadInterval : Int) :
    Nat → Int → Int → Int → List (Int × Int) →
    Option (JsResult Int × List (Int × Int))
  | 0, _, _, _, _ => none
  | fuel + 1, currentTime, nonZeroTime, totalCount, log =>
    if 0 < currentTime ∧ |currentTime - nonZeroTime| ≤ deadInterval then
      let s : Int := if currentTime - interval + 1 < 0 then 0 else currentTime - interval + 1
      match readWindow server s currentTime with
      | .ok c =>
          readCountLongLoopF server interval deadInterval fuel
            (currentTime - interval)
            (if 0 < c then currentTime else nonZeroTime)
            (totalCount + c)
            (log ++ [(s, currentTime)])
      | .thrown msg => some (.thrown msg, log ++ [(s, currentTime)])
      | .typeError => some (.typeError, log ++ [(s, currentTime)])
    else
      some (.ok totalCount, log)

end ReadOnlyKairosDB

/-- Specification-side observer: the per-window counts the backward scan
obtains, in scan order, before it stops (stopping both on the loop guard
and on an aborting throw/fault). It follows the loop's own schedule —
window end `currentTime`, stepping back by `interval`, `nonZeroTime`
advanced on positive counts — so that the loop's returned total can be
stated to equal this list's sum. -/
def windowCounts (server : Int → Int → KairosResponse) (interval : Int)
    (hI : 1 < interval) (deadInterval : Int)
    (currentTime nonZeroTime : Int) : List Int :=
  if h : 0 < currentTime ∧ |currentTime - nonZeroTime| ≤ deadInterval then
    match ReadOnlyKairosDB.readWindow server
        (if currentTime - interval + 1 < 0 then 0 else currentTime - interval + 1) currentTime with
    | .ok c =>
        c :: windowCounts server interval hI deadInterval
          (currentTime - interval) (if 0 < c then currentTime else nonZeroTime)
    | .thrown _ => []
    | .typeError => []
  else []
termination_by currentTime.toNat
decreasing_by
  simp_wf
  obtain ⟨h1, -⟩ := h
  omega

/-- Synthetic well-formed server response reporting the count `c`: one query
with `sample_size = c` and a single result point whose value is `c`; used to
instantiate server-behaviour hypotheses on concrete inputs. -/
def mkCountResponse (c : Int) : KairosResponse :=
  { queries := [{ sample_size := c, results := [{ name := "m", tags := [], values := [(0, c)] }] }]
    errors := none }

/-- Response whose `errors` field is present but holds the empty array — in
JavaScript this field is truthy. -/
def respEmptyErrors : KairosResponse :=
  { queries := [], errors := some [] }

/-- Response with zero queries and no `errors` field, i.e. the decoded form
of the body `{"queries":[]}`. -/
def emptyQueriesResponse : KairosResponse :=
  { queries := [], errors := none }

/-- One-metric request carrying no aggregators, as a builder such as
`createSimpleRequest` would produce it. -/
def reqNoAgg : KairosRequest :=
  { cache_time := 0
    start_absolute := 1
    end_absolute := none
    time_zone := none
    metrics := [{ name := "m", tags := [], group_by := [], aggregators := [] }] }

/-- Unfolding equation of the `readCountLong` loop body, with the two `let`
bindings of the window start inlined. -/
lemma readCountLongLoop_eq (server : Int → Int → KairosResponse) (interval : Int)
    (hI : 1 < interval) (deadInterval : Int)
    (currentTime nonZeroTime totalCount : Int) (log : List (Int × Int)) :
    ReadOnlyKairosDB.readCountLongLoop server interval hI deadInterval
        currentTime nonZeroTime totalCount log =
    if 0 < currentTime ∧ |currentTime - nonZeroTime| ≤ deadInterval then
      match ReadOnlyKairosDB.readWindow server
          (if currentTime - interval + 1 < 0 then 0 else currentTime - interval + 1) currentTime with
      | .ok c =>
          ReadOnlyKairosDB.readCountLongLoop server interval hI deadInterval
            (currentTime - interval)
            (if 0 < c then currentTime else nonZeroTime)
            (totalCount + c)
            (log ++ [(if currentTime - interval + 1 < 0 then 0 else currentTime - interval + 1, currentTime)])
      | .thrown msg =>
          (.thrown msg,
           log ++ [(if currentTime - interval + 1 < 0 then 0 else currentTime - interval + 1, currentTime)])
      | .typeError =>
          (.typeError,
           log ++ [(if currentTime - interval + 1 < 0 then 0 else currentTime - interval + 1, currentTime)])
    else
      (.ok totalCount, log) := by
  conv_lhs => unfold ReadOnlyKairosDB.readCountLongLoop
  rfl

/-- When every window at or before `t` reads back a zero count, the loop
accumulates nothing further: it returns the running total unchanged. -/
lemma readCountLongLoop_zero_tail (server : Int → Int → KairosResponse)
    (interval : Int) (hI : 1 < interval) (deadInterval : Int) :
    ∀ (n : Nat) (t nz tot : Int) (log : List (Int × Int)), t.toNat ≤ n →
      (∀ s e : Int, e ≤ t → ReadOnlyKairosDB.readWindow server s e = .ok 0) →
      (ReadOnlyKairosDB.readCountLongLoop server interval hI deadInterval t nz tot log).1 =
        .ok tot := by
  intro n
  induction n with
  | zero =>
    intro t nz tot log ht hz
    rw [readCountLongLoop_eq, if_neg]
    intro hcon
    have := hcon.1
    omega
  | succ n ih =>
    intro t nz tot log ht hz
    rw [readCountLongLoop_eq]
    by_cases hg : 0 < t ∧ |t - nz| ≤ deadInterval
    · rw [if_pos hg]
      have hw := hz (if t - interval + 1 < 0 then 0 else t - interval + 1) t le_rfl
      rw [hw]
      dsimp only
      have h0 : (if (0:Int) < 0 then t else nz) = nz := by norm_num
      rw [h0, add_zero]
      apply ih
      · have := hg.1
        omega
      · intro s e he
        exact hz s e (by omega)
    · rw [if_neg hg]

/-- Every window of a server built from `mkCountResponse` over a count
function reads back exactly that count. -/
lemma readWindow_mkCountResponse (f : Int → Int) (s e : Int) :
    ReadOnlyKairosDB.readWindow (fun _ e2 => mkCountResponse (f e2)) s e = .ok (f e) := by
  unfold ReadOnlyKairosDB.readWindow ReadOnlyKairosDB.read mkCountResponse
    ReadOnlyKairosDB.extractCount
  by_cases h : f e = 0
  · simp [h]
  · simp [h]

/-- Unfolding equation of the `windowCounts` observer. -/
lemma windowCounts_eq (server : Int → Int → KairosResponse) (interval : Int)
    (hI : 1 < interval) (deadInterval : Int) (currentTime nonZeroTime : Int) :
    windowCounts server interval hI deadInterval currentTime nonZeroTime =
    if 0 < currentTime ∧ |currentTime - nonZeroTime| ≤ deadInterval then
      match ReadOnlyKairosDB.readWindow server
          (if currentTime - interval + 1 < 0 then 0 else currentTime - interval + 1) currentTime with
      | .ok c =>
          c :: windowCounts server interval hI deadInterval
            (currentTime - interval) (if 0 < c then currentTime else nonZeroTime)
      | .thrown _ => []
      | .typeError => []
    else [] := by
  conv_lhs => unfold windowCounts
  rfl

/-- Accumulator correctness of the loop: whenever the scan returns a total
normally, that total is the running accumulator plus the sum of the
per-window counts obtained from the current state onwards. -/
lemma readCountLongLoop_sum (server : Int → Int → KairosResponse)
    (I : Int) (hI : 1 < I) (D : Int) :
    ∀ (n : Nat) (t nz tot : Int) (log : List (Int × Int)), t.toNat ≤ n →
      ∀ v, (ReadOnlyKairosDB.readCountLongLoop server I hI D t nz tot log).1 = .ok v →
      v = tot + (windowCounts server I hI D t nz).sum := by
  intro n
  induction n with
  | zero =>
    intro t nz tot log ht v hv
    rw [readCountLongLoop_eq, if_neg (by intro hcon; have := hcon.1; omega)] at hv
    rw [windowCounts_eq, if_neg (by intro hcon; have := hcon.1; omega)]
    injection hv with h1
    simp [h1.symm]
  | succ n ih =>
    intro t nz tot log ht v hv
    rw [readCountLongLoop_eq] at hv
    rw [windowCounts_eq]
    by_cases hg : 0 < t ∧ |t - nz| ≤ D
    · rw [if_pos hg] at hv
      rw [if_pos hg]
      rcases hsv : ReadOnlyKairosDB.readWindow server (if t - I + 1 < 0 then 0 else t - I + 1) t
          with c | msg | _
      · rw [hsv] at hv
        dsimp only at hv
        dsimp only
        have := ih (t - I) (if 0 < c then t else nz) (tot + c) _ (by have := hg.1; omega) v hv
        rw [this, List.sum_cons]
        ring
      · rw [hsv] at hv
        exact absurd hv (by simp)
      · rw [hsv] at hv
        exact absurd hv (by simp)
    · rw [if_neg hg] at hv
      rw [if_neg hg]
      injection hv with h1
      simp [h1.symm]

/-- Sum form of the loop's accumulator correctness for a whole
`readCountLong` call: a normally returned value equals the sum of the
per-window counts obtained before the loop stopped. -/
lemma readCountLong_sum_general (server : Int → Int → KairosResponse)
    (settings : TimeIntervalCountingSettings) (now : Int) (hI : 1 < settings.interval) :
    ∀ v, (ReadOnlyKairosDB.readCountLong server settings now).1 = .ok v →
      v = (windowCounts server settings.interval hI settings.deadInterval now now).sum := by
  intro v hv
  unfold ReadOnlyKairosDB.readCountLong at hv
  rw [dif_pos hI] at hv
  have := readCountLongLoop_sum server settings.interval hI settings.deadInterval
    now.toNat now now 0 [] le_rfl v hv
  simpa using this

/-- C1: with `interval > 1`, each `readCountLong` iteration queries the
window `[max(0, currentTime − interval + 1), currentTime]`, accumulates the
window's count, and steps back by `interval`; a normally returned value is
exactly the sum of the per-window counts obtained before the loop stops.
Against a server reporting positive counts `c1` at the newest window end
`now` and `c2` at `now − interval`, and zero everywhere else, with the dead
interval at least one window long, the call returns exactly `c1 + c2`, the
sum of the two windows' counts. -/
theorem readCountLong_two_windows
    (server : Int → Int → KairosResponse) (settings : TimeIntervalCountingSettings)
    (now c1 c2 : Int)
    (hI : 1 < settings.interval) (hID : settings.interval ≤ settings.deadInterval)
    (hnow : settings.interval < now) (hc1 : 0 < c1) (hc2 : 0 < c2)
    (hsrv : ∀ s e : Int, ReadOnlyKairosDB.readWindow server s e =
      .ok (if e = now then c1 else if e = now - settings.interval then c2 else 0)) :
    (∀ v, (ReadOnlyKairosDB.readCountLong server settings now).1 = .ok v →
      v = (windowCounts server settings.interval hI settings.deadInterval now now).sum) ∧
    (ReadOnlyKairosDB.readCountLong server settings now).1 = .ok (c1 + c2) := by
  refine ⟨readCountLong_sum_general server settings now hI, ?_⟩
  obtain ⟨I, D⟩ := settings
  dsimp only at hI hID hnow hsrv ⊢
  unfold ReadOnlyKairosDB.readCountLong
  rw [dif_pos hI]
  dsimp only
  rw [readCountLongLoop_eq,
    if_pos (⟨by omega, by rw [sub_self, abs_zero]; omega⟩ :
      0 < now ∧ |now - now| ≤ D)]
  rw [hsrv, if_pos (rfl : now = now)]
  dsimp only
  rw [if_pos hc1, zero_add]
  rw [readCountLongLoop_eq,
    if_pos (⟨by omega, by rw [show now - I - now = -I by ring, abs_neg, abs_of_pos (by omega)]; omega⟩ :
      0 < now - I ∧ |now - I - now| ≤ D)]
  rw [hsrv, if_neg (by omega : ¬ (now - I = now)), if_pos (rfl : now - I = now - I)]
  dsimp only
  rw [if_pos hc2]
  exact readCountLongLoop_zero_tail server I hI D (now - I - I).toNat (now - I - I)
    (now - I) (c1 + c2) _ le_rfl
    (by
      intro s e he
      rw [hsrv, if_neg (by omega : ¬ (e = now)), if_neg (by omega : ¬ (e = now - I))])

/-- Witness for C1 at a concrete server: counts 3 and 4 in the windows
ending at 100 and 90, zero elsewhere, interval 10, dead interval 20. -/
theorem readCountLong_two_windows_witness :
    (ReadOnlyKairosDB.readCountLong
        (fun _ e => mkCountResponse (if e = 100 then 3 else if e = 90 then 4 else 0))
        ⟨10, 20⟩ 100).1 = .ok (3 + 4) :=
  (readCountLong_two_windows _ ⟨10, 20⟩ 100 3 4 (by norm_num) (by norm_num) (by norm_num)
    (by norm_num) (by norm_num)
    (by
      intro s e
      rw [readWindow_mkCountResponse (fun e => if e = 100 then 3 else if e = 90 then 4 else 0)]
      norm_num)).2

/-- Fuel bound for the loop: `t.toNat` iterations of fuel plus one always
suffice, and the fuel-indexed loop then agrees with the loop itself. -/
lemma readCountLongLoopF_eq_loop (server : Int → Int → KairosResponse)
    (I D : Int) (hI : 1 < I) :
    ∀ (n : Nat) (t nz tot : Int) (log : List (Int × Int)), t.toNat < n →
      ReadOnlyKairosDB.readCountLongLoopF server I D n t nz tot log =
        some (ReadOnlyKairosDB.readCountLongLoop server I hI D t nz tot log) := by
  intro n
  induction n with
  | zero => intro t nz tot log ht; omega
  | succ n ih =>
    intro t nz tot log ht
    rw [readCountLongLoop_eq]
    simp only [ReadOnlyKairosDB.readCountLongLoopF]
    by_cases hg : 0 < t ∧ |t - nz| ≤ D
    · rw [if_pos hg, if_pos hg]
      rcases hsv : ReadOnlyKairosDB.readWindow server (if t - I + 1 < 0 then 0 else t - I + 1) t
          with c | msg | _ <;> dsimp only
      · apply ih
        have := hg.1
        omega
    · rw [if_neg hg, if_neg hg]

/-- C2: with `interval > 1` and `deadInterval ≥ 0`, the backward scan
terminates: the fuel-indexed loop, given `currentTime.toNat + 1` iterations
of fuel, completes (returns `some`) and agrees with the loop — each
iteration strictly decreases `currentTime` by `interval ≥ 2`, so the scan
ends once `currentTime` reaches or passes `0` or the dead-interval guard
fails. -/
theorem readCountLong_terminates (server : Int → Int → KairosResponse)
    (settings : TimeIntervalCountingSettings) (t nz tot : Int) (log : List (Int × Int))
    (hI : 1 < settings.interval) (hD : 0 ≤ settings.deadInterval) :
    ReadOnlyKairosDB.readCountLongLoopF server settings.interval settings.deadInterval
        (t.toNat + 1) t nz tot log =
      some (ReadOnlyKairosDB.readCountLongLoop server settings.interval hI
        settings.deadInterval t nz tot log) :=
  readCountLongLoopF_eq_loop server settings.interval settings.deadInterval hI
    (t.toNat + 1) t nz tot log (by omega)

/-- Witness for C2 at a concrete always-zero server, interval 2, dead
interval 0, start time 3. -/
theorem readCountLong_terminates_witness :
    ReadOnlyKairosDB.readCountLongLoopF (fun _ _ => mkCountResponse 0) 2 0
        ((3:Int).toNat + 1) 3 3 0 [] =
      some (ReadOnlyKairosDB.readCountLongLoop (fun _ _ => mkCountResponse 0) 2
        (by norm_num) 0 3 3 0 []) :=
  readCountLong_terminates (fun _ _ => mkCountResponse 0) ⟨2, 0⟩ 3 3 0 []
    (by norm_num) (by norm_num)

/-- C3: `checkKairosItemsEqual` decides exactly structural, order-sensitive
equality of the two item sequences: it is `true` precisely when the lists
are equal — so it is `false` on a length mismatch or any differing
timestamp/value position, `true` on identical sequences (the empty ones
included), and `false` on reordered-but-equal-multiset sequences that are
not literally identical. As a Lean function it is pure by construction. -/
theorem checkKairosItemsEqual_iff (left right : List KairosItem) :
    checkKairosItemsEqual left right = true ↔ left = right := by
  unfold checkKairosItemsEqual
  by_cases hlen : left.length = right.length
  · rw [if_neg (by omega)]
    rw [List.all_eq_true]
    constructor
    · intro h
      apply List.ext_getElem hlen
      intro i h1 h2
      have hi := h i (List.mem_range.mpr h1)
      simp only [Bool.and_eq_true, beq_iff_eq] at hi
      have hgl := List.getD_eq_getElem left (0, 0) h1
      have hgr := List.getD_eq_getElem right (0, 0) h2
      rw [hgl, hgr] at hi
      exact Prod.ext_iff.mpr ⟨hi.1, hi.2⟩
    · rintro rfl
      intro i hi
      simp
  · rw [if_pos (by omega)]
    constructor
    · intro h
      exact absurd h (by simp)
    · intro h
      exact absurd (congrArg List.length h) (by omega)

/-- C4: when `settings.interval ≤ 1` (in particular `interval = 1`),
`readCountLong` throws `settings.interval must be greater than 1` and the
list of issued windows is empty — no read request is made, for any server. -/
theorem readCountLong_invalid_interval (server : Int → Int → KairosResponse)
    (settings : TimeIntervalCountingSettings) (now : Int)
    (h : settings.interval ≤ 1) :
    ReadOnlyKairosDB.readCountLong server settings now =
      (.thrown "settings.interval must be greater than 1", []) := by
  unfold ReadOnlyKairosDB.readCountLong
  rw [dif_neg (by omega)]

/-- Witness for C4 at `interval = 1`. -/
theorem readCountLong_invalid_interval_witness :
    ReadOnlyKairosDB.readCountLong (fun _ _ => mkCountResponse 0) ⟨1, 5⟩ 100 =
      (.thrown "settings.interval must be greater than 1", []) :=
  readCountLong_invalid_interval (fun _ _ => mkCountResponse 0) ⟨1, 5⟩ 100 (by norm_num)

/-- C5: on an error-free response whose first query exists, `readCount`
returns `0` when that query's `sample_size` is falsy (zero), without
throwing; otherwise it returns `queries[0].results[0].values[0][1]`, the
count value of the first point. -/
theorem readCount_first_query (resp : KairosResponse) (q : KairosQueryResponse)
    (qs : List KairosQueryResponse) (hq : resp.queries = q :: qs)
    (hne : resp.errors = none) :
    (q.sample_size = 0 → ReadOnlyKairosDB.readCount resp = .ok 0) ∧
    (∀ r rs v vs, q.sample_size ≠ 0 → q.results = r :: rs → r.values = v :: vs →
      ReadOnlyKairosDB.readCount resp = .ok v.2) := by
  unfold ReadOnlyKairosDB.readCount ReadOnlyKairosDB.read
  rw [hne]
  dsimp only
  unfold ReadOnlyKairosDB.extractCount
  rw [hq]
  dsimp only
  constructor
  · intro h0
    rw [if_neg (by simp [h0])]
  · intro r rs v vs hs hr hv
    rw [if_pos hs, hr]
    dsimp only
    rw [hv]

/-- Witness for C5: a zero-`sample_size` response yields a count of 0. -/
theorem readCount_first_query_witness :
    ReadOnlyKairosDB.readCount (mkCountResponse 0) = .ok 0 :=
  (readCount_first_query (mkCountResponse 0)
    { sample_size := 0, results := [{ name := "m", tags := [], values := [(0, 0)] }] }
    [] rfl rfl).1 rfl

/-- Helper for C6: mapping the aggregator assignment over a metrics list is
the identity exactly when every metric already carries exactly the count
aggregator list. -/
lemma setAgg_map_eq_self (ms : List KairosRequestMetric) :
    ms.map (fun m => { m with aggregators := [ReadOnlyKairosDB.countAggregator] }) = ms ↔
    ∀ m ∈ ms, m.aggregators = [ReadOnlyKairosDB.countAggregator] := by
  induction ms with
  | nil => simp
  | cons m ms ih =>
    obtain ⟨n, t, g, a⟩ := m
    simp only [List.map_cons, List.cons.injEq, KairosRequestMetric.mk.injEq, true_and, ih,
      List.mem_cons, forall_eq_or_imp]
    constructor
    · rintro ⟨h1, h2⟩
      exact ⟨h1.symm, h2⟩
    · rintro ⟨h1, h2⟩
      exact ⟨h1.symm, h2⟩

/-- C6 (amended): `readCount` mutates the caller's request in place — after
the call every metric of the caller's request carries exactly the `count`
aggregator (with `align_sampling = true` and the 999999-years sampling
window) while the other request fields are untouched; the caller's request
record is left unchanged only in the degenerate case that all its metrics
already carried exactly that aggregator list. -/
theorem readCountMutate_behaviour (request : KairosRequest) :
    (ReadOnlyKairosDB.readCountMutate request).cache_time = request.cache_time ∧
    (ReadOnlyKairosDB.readCountMutate request).start_absolute = request.start_absolute ∧
    (ReadOnlyKairosDB.readCountMutate request).end_absolute = request.end_absolute ∧
    (ReadOnlyKairosDB.readCountMutate request).time_zone = request.time_zone ∧
    (ReadOnlyKairosDB.readCountMutate request).metrics.length = request.metrics.length ∧
    (∀ m ∈ (ReadOnlyKairosDB.readCountMutate request).metrics,
      m.aggregators = [ReadOnlyKairosDB.countAggregator]) ∧
    (ReadOnlyKairosDB.readCountMutate request = request ↔
      ∀ m ∈ request.metrics, m.aggregators = [ReadOnlyKairosDB.countAggregator]) := by
  obtain ⟨ct, sa, ea, tz, ms⟩ := request
  unfold ReadOnlyKairosDB.readCountMutate
  refine ⟨rfl, rfl, rfl, rfl, by simp, ?_, ?_⟩
  · intro m hm
    rcases List.mem_map.mp hm with ⟨m0, hm0, rfl⟩
    rfl
  · rw [KairosRequest.mk.injEq]
    simp only [true_and]
    exact setAgg_map_eq_self ms

/-- Counterexample for C6 as stated: on a request whose single metric has no
aggregators, the caller's request record is changed by the call — the claim
that it is left unchanged fails. -/
theorem readCountMutate_counterexample :
    ReadOnlyKairosDB.readCountMutate reqNoAgg ≠ reqNoAgg := by decide

/-- Witness for C6's amended theorem, instantiating its per-metric clause at
the concrete post-call metric of `reqNoAgg`. -/
theorem readCountMutate_behaviour_witness :
    ({ name := "m", tags := [], group_by := [],
       aggregators := [ReadOnlyKairosDB.countAggregator] } : KairosRequestMetric).aggregators =
      [ReadOnlyKairosDB.countAggregator] :=
  (readCountMutate_behaviour reqNoAgg).2.2.2.2.2.1
    { name := "m", tags := [], group_by := [],
      aggregators := [ReadOnlyKairosDB.countAggregator] } (by decide)

/-- C7 (amended): `read` returns the decoded response unchanged exactly when
the `errors` field is absent; whenever the field is present — the empty
list included, since an empty array is truthy in JavaScript — the call
throws the `\n`-joined error messages. -/
theorem read_errors_behaviour (resp : KairosResponse) :
    (ReadOnlyKairosDB.read resp = .ok resp ↔ resp.errors = none) ∧
    (∀ errs, resp.errors = some errs →
      ReadOnlyKairosDB.read resp = .thrown (String.intercalate "\n" errs)) := by
  unfold ReadOnlyKairosDB.read
  rcases hres : resp.errors with _ | errs <;> simp [hres]

/-- Counterexample for C7 as stated: a response carrying a present-but-empty
`errors` sequence is not returned — the call throws (with an empty
message), though the claim says an empty `errors` returns the response. -/
theorem read_empty_errors_counterexample :
    respEmptyErrors.errors = some [] ∧
    ReadOnlyKairosDB.read respEmptyErrors = .thrown "" ∧
    ReadOnlyKairosDB.read respEmptyErrors ≠ .ok respEmptyErrors := by
  refine ⟨rfl, rfl, ?_⟩
  intro h
  exact JsResult.noConfusion h

/-- Witness for C7's amended theorem: an errors-free response is returned
unchanged. -/
theorem read_errors_behaviour_witness :
    ReadOnlyKairosDB.read emptyQueriesResponse = .ok emptyQueriesResponse :=
  (read_errors_behaviour emptyQueriesResponse).1.mpr rfl

/-- C8 (amended): `getMetricTags` on a response with zero queries, or zero
results in the first query, hits an unguarded index fault (a TypeError from
a property access on `undefined`); it neither raises a guarded
MalformedResponse-style thrown error nor silently returns an empty mapping.
When the first result exists its `tags` mapping is returned. -/
theorem getMetricTags_behaviour (resp : KairosResponse) :
    (resp.queries = [] → ReadOnlyKairosDB.getMetricTags resp = .typeError) ∧
    (∀ q qs, resp.queries = q :: qs → q.results = [] →
      ReadOnlyKairosDB.getMetricTags resp = .typeError) ∧
    (∀ q qs r rs, resp.queries = q :: qs → q.results = r :: rs →
      ReadOnlyKairosDB.getMetricTags resp = .ok r.tags) := by
  unfold ReadOnlyKairosDB.getMetricTags
  refine ⟨fun h => by rw [h], fun q qs hq hr => ?_, fun q qs r rs hq hr => ?_⟩
  · rw [hq]
    dsimp only
    rw [hr]
  · rw [hq]
    dsimp only
    rw [hr]

/-- Counterexample for C8 as stated: on the decoded form of
`{"queries":[]}` the call ends in the unguarded TypeError — not in a
thrown MalformedResponse-class error. -/
theorem getMetricTags_empty_queries_counterexample :
    ReadOnlyKairosDB.getMetricTags emptyQueriesResponse = .typeError := rfl

/-- Witness for C8's amended theorem on a well-formed response. -/
theorem getMetricTags_behaviour_witness :
    ReadOnlyKairosDB.getMetricTags (mkCountResponse 5) = .ok ([] : KairosMultiTags) :=
  (getMetricTags_behaviour (mkCountResponse 5)).2.2
    { sample_size := 5, results := [{ name := "m", tags := [], values := [(0, 5)] }] }
    [] { name := "m", tags := [], values := [(0, 5)] } [] rfl rfl

/-- C9: each mutating operation (`deleteMetric`, `write`, `delete`) succeeds
exactly on HTTP status 204, and on any other status throws an error whose
message is the response body text. -/
theorem mutating_ops_status_204 (resp : HttpResponse) :
    (resp.status = 204 →
      KairosDB.deleteMetric resp = .ok resp ∧ KairosDB.write resp = .ok () ∧
      KairosDB.delete resp = .ok resp) ∧
    (resp.status ≠ 204 →
      KairosDB.deleteMetric resp = .thrown resp.body ∧
      KairosDB.write resp = .thrown resp.body ∧
      KairosDB.delete resp = .thrown resp.body) := by
  unfold KairosDB.deleteMetric KairosDB.write KairosDB.delete
  constructor <;> intro h <;> simp [h]

/-- Witness for C9 at a 404 response: all three operations throw the body
text. -/
theorem mutating_ops_status_204_witness :
    KairosDB.deleteMetric ⟨404, "not found"⟩ = .thrown "not found" ∧
    KairosDB.write ⟨404, "not found"⟩ = .thrown "not found" ∧
    KairosDB.delete ⟨404, "not found"⟩ = .thrown "not found" :=
  (mutating_ops_status_204 ⟨404, "not found"⟩).2 (by decide)

/-- Invariant of the loop's issued windows: appending only windows with a
clamped non-negative start not exceeding their end preserves the log-wide
bound property. -/
lemma readCountLongLoop_log_bounds (server : Int → Int → KairosResponse)
    (I : Int) (hI : 1 < I) (D : Int) :
    ∀ (n : Nat) (t nz tot : Int) (log : List (Int × Int)), t.toNat ≤ n →
      (∀ w ∈ log, 0 ≤ w.1 ∧ w.1 ≤ w.2) →
      ∀ w ∈ (ReadOnlyKairosDB.readCountLongLoop server I hI D t nz tot log).2,
        0 ≤ w.1 ∧ w.1 ≤ w.2 := by
  intro n
  induction n with
  | zero =>
    intro t nz tot log ht hlog
    rw [readCountLongLoop_eq, if_neg]
    · exact hlog
    · intro hcon
      have := hcon.1
      omega
  | succ n ih =>
    intro t nz tot log ht hlog
    rw [readCountLongLoop_eq]
    by_cases hg : 0 < t ∧ |t - nz| ≤ D
    · have hnew : ∀ w ∈ log ++ [(if t - I + 1 < 0 then 0 else t - I + 1, t)],
          0 ≤ w.1 ∧ w.1 ≤ w.2 := by
        intro w hw
        rcases List.mem_append.mp hw with hw | hw
        · exact hlog w hw
        · have heq : w = (if t - I + 1 < 0 then 0 else t - I + 1, t) := List.mem_singleton.mp hw
          subst heq
          refine ⟨?_, ?_⟩ <;> dsimp only <;> split
          · omega
          · omega
          · have := hg.1
            omega
          · omega
      rw [if_pos hg]
      rcases hsv : ReadOnlyKairosDB.readWindow server (if t - I + 1 < 0 then 0 else t - I + 1) t
          with c | msg | _ <;> dsimp only
      · apply ih
        · have := hg.1
          omega
        · exact hnew
      · exact hnew
      · exact hnew
    · rw [if_neg hg]
      exact hlog

/-- C10: every request the `readCountLong` loop issues has well-formed
window bounds — `start_absolute ≥ 0` and `start_absolute ≤ end_absolute` —
because the start is clamped to `0` from below and otherwise equals
`end_absolute − interval + 1` with `interval > 1` and a positive
`end_absolute`. -/
theorem readCountLong_window_bounds (server : Int → Int → KairosResponse)
    (settings : TimeIntervalCountingSettings) (now : Int) :
    ∀ w ∈ (ReadOnlyKairosDB.readCountLong server settings now).2, 0 ≤ w.1 ∧ w.1 ≤ w.2 := by
  unfold ReadOnlyKairosDB.readCountLong
  split
  · exact readCountLongLoop_log_bounds server settings.interval _ settings.deadInterval
      now.toNat now now 0 [] le_rfl (by simp)
  · simp

/-- Helper for C10's witness: one concrete scan issues exactly the window
`(4, 5)`. -/
lemma readCountLong_small_log :
    (ReadOnlyKairosDB.readCountLong (fun _ _ => mkCountResponse 0) ⟨2, 0⟩ 5).2 = [(4, 5)] := by
  unfold ReadOnlyKairosDB.readCountLong
  rw [dif_pos (by norm_num)]
  dsimp only
  rw [readCountLongLoop_eq, if_pos (by decide : (0:Int) < 5 ∧ |(5:Int) - 5| ≤ 0)]
  rw [readWindow_mkCountResponse (fun _ => 0)]
  dsimp only
  norm_num
  rw [readCountLongLoop_eq, if_neg (by decide : ¬ ((0:Int) < 3 ∧ |(3:Int) - 5| ≤ 0))]

/-- Witness for C10 at the concrete issued window `(4, 5)`. -/
theorem readCountLong_window_bounds_witness :
    0 ≤ (4:Int) ∧ (4:Int) ≤ 5 :=
  readCountLong_window_bounds (fun _ _ => mkCountResponse 0) ⟨2, 0⟩ 5 (4, 5)
    (by rw [readCountLong_small_log]; exact List.mem_singleton.mpr rfl)
